import Mathlib

/-!
Effective C++, Item 2: prefer consts, enums and inlines to `#define`s.

A verification development for `src/item2.cpp`.

The translation unit holds two programs, chosen by the preprocessor:

* the `#if 0` branch, the macro program (`PI`, `CIRCLE_AREA`, `SQUARE`,
  `CIRCLE` as `#define`s), embedded in the namespace `Item2.Macro`;
* the `#else` branch, the typed program that is actually compiled
  (`const double PI`, `inline double calculateCircleArea`,
  `enum class ShapeType`), embedded in the namespace `Item2.Typed`.

Arithmetic is embedded at three levels.

* `Item2.Typed` and `Item2.Macro` read the expressions in exact arithmetic: a
  `double` is a rational number (every finite `double` is one) and `*` is
  multiplication in `ℚ`.
* `Item2.Binary64` holds IEEE 754 binary64 rounding (to nearest, ties to even) and
  the area expression on finite radii, with a rounding after the literal and
  after each product; `none` stands for an overflow.
* `Item2.Machine` is the function on every `double`: NaN, the two infinities and
  finite values with their sign, built on the same rounding.

`std::cout` is embedded as the list of the items inserted into it so far; a
`main` takes that list and returns its exit status together with the new list.
-/

namespace Item2

/-! ## Standard output -/

/-- One insertion into `std::cout`: a string literal, a `double`, or `std::endl`. -/
inductive Token where
  | text (s : String)
  | num (v : ℚ)
  | endl
  deriving DecidableEq

/-- Splits the inserted items into lines: `acc` holds the current line, reversed;
`std::endl` closes the line, and items after the last `std::endl` make a final
line of their own. -/
def linesAux : List Token → List Token → List (List Token)
  | acc, [] => if acc.isEmpty then [] else [acc.reverse]
  | acc, Token.endl :: rest => acc.reverse :: linesAux [] rest
  | acc, Token.text s :: rest => linesAux (Token.text s :: acc) rest
  | acc, Token.num v :: rest => linesAux (Token.num v :: acc) rest

/-- The lines of text written to `std::cout`, each as the items it is made of. -/
def lines (cout : List Token) : List (List Token) :=
  linesAux [] cout

/-! ## The macro program (`#if 0` branch, lines 9-28) -/

namespace Macro

/-- Source: `#define PI 3.14159`. -/
def PI : ℚ := 3.14159

/-- Source: `#define CIRCLE_AREA(radius) (PI * (radius) * (radius))`, at an argument
that is a value. -/
def CIRCLE_AREA (radius : ℚ) : ℚ :=
  (PI * (radius) * (radius))

/-- Source: `#define SQUARE 1`. -/
def SQUARE : Int := 1

/-- Source: `#define CIRCLE 2`. -/
def CIRCLE : Int := 2

/-- The two `if` statements and the `return 0;` of the macro `main`, with the
locals `shape` and `radius` as arguments. -/
def mainBody (shape : Int) (radius : ℚ) (cout : List Token) : Int × List Token :=
  let cout :=
    if shape == CIRCLE then
      cout ++ [Token.text "Circle area: ", Token.num (CIRCLE_AREA radius), Token.endl]
    else cout
  let cout :=
    if shape == SQUARE then
      cout ++ [Token.text "Square area (mistake): ", Token.num (CIRCLE_AREA radius), Token.endl]
    else cout
  (0, cout)

/-- Source: `int main()` of the macro program: `int shape = CIRCLE;` and
`float radius = 5.0;` (the value 5 is exact in `float` and in `double`). -/
def main (cout : List Token) : Int × List Token :=
  let shape : Int := CIRCLE
  let radius : ℚ := 5.0
  mainBody shape radius cout

end Macro

/-! ## The typed program (`#else` branch, lines 45-72) -/

namespace Typed

/-- Source: `const double PI = 3.14159;`, read in exact arithmetic: the decimal
`3.14159` itself. -/
def PI : ℚ := 3.14159

/-- Source: `inline double calculateCircleArea(double radius)`, read in exact
arithmetic: the products are not rounded. -/
def calculateCircleArea (radius : ℚ) : ℚ :=
  PI * radius * radius

/-- Source: `enum class ShapeType { Square, Circle };`. -/
inductive ShapeType where
  | Square
  | Circle
  deriving DecidableEq, Fintype

/-- The two `if` statements and the `return 0;` of the typed `main`, with the
locals `shape` and `radius` as arguments. -/
def mainBody (shape : ShapeType) (radius : ℚ) (cout : List Token) : Int × List Token :=
  let cout :=
    if shape == ShapeType.Circle then
      cout ++ [Token.text "Circle area: ", Token.num (calculateCircleArea radius), Token.endl]
    else cout
  let cout :=
    if shape == ShapeType.Square then
      cout ++ [Token.text "Square area (mistake): ", Token.num (calculateCircleArea radius),
        Token.endl]
    else cout
  (0, cout)

/-- Source: `int main()` of the typed program: `ShapeType shape = ShapeType::Circle;`
and `double radius = 5.0;`. -/
def main (cout : List Token) : Int × List Token :=
  let shape : ShapeType := ShapeType.Circle
  let radius : ℚ := 5.0
  mainBody shape radius cout

end Typed

/-! ## IEEE 754 binary64 arithmetic -/

namespace Binary64

/-- The binary exponent of a non-zero rational: the integer `e` with
`2 ^ e ≤ |x| < 2 ^ (e + 1)`. -/
def exponent (x : ℚ) : Int :=
  let e : Int := (Nat.log2 x.num.natAbs : Int) - (Nat.log2 x.den : Int)
  if (2 : ℚ) ^ e ≤ |x| then e else e - 1

/-- The nearest integer, a tie going to the even neighbour. -/
def nearestEven (y : ℚ) : Int :=
  let f : Int := ⌊y⌋
  let d : ℚ := y - f
  if d < 1 / 2 then f
  else if 1 / 2 < d then f + 1
  else if f % 2 = 0 then f else f + 1

/-- Rounding of an exact result to binary64, to nearest with ties to even: 53
significant bits, least normal exponent `-1022` (below it the spacing stays
`2 ^ (-1074)`), and `none` when the rounded magnitude reaches `2 ^ 1024`, where
the machine result is an infinity. -/
def round (x : ℚ) : Option ℚ :=
  if x = 0 then some 0
  else
    let e : Int := max (exponent x) (-1022)
    let ulp : ℚ := (2 : ℚ) ^ (e - 52)
    let y : ℚ := (nearestEven (x / ulp) : ℚ) * ulp
    if |y| < (2 : ℚ) ^ (1024 : Int) then some y else none

/-- The `double` product `a * b`. -/
def mul (a b : ℚ) : Option ℚ :=
  round (a * b)

/-- Source: `const double PI = 3.14159;`, the literal rounded to binary64. -/
def PI : Option ℚ :=
  round 3.14159

/-- Source: `inline double calculateCircleArea(double radius)`, the body
`PI * radius * radius` evaluated left to right with a rounding after each product,
on a finite radius. -/
def calculateCircleArea (radius : ℚ) : Option ℚ := do
  let pi ← PI
  let t ← mul pi radius
  mul t radius

/-- A `double`: a NaN, an infinity with its sign, or a finite value given by its sign
and its magnitude, so that `+0.0` and `-0.0` are distinct. -/
inductive Double where
  | nan
  | inf (negative : Bool)
  | finite (negative : Bool) (magnitude : ℚ)
  deriving DecidableEq

/-- The `double` a decimal literal denotes: the sign of the literal and its magnitude
rounded to binary64. -/
def Double.ofLiteral (x : ℚ) : Double :=
  match round |x| with
  | some y => Double.finite (decide (x < 0)) y
  | none => Double.inf (decide (x < 0))

/-- The `double` product `a * b` on all doubles: a NaN operand gives NaN, an infinity
times a zero gives NaN, an infinity times anything else an infinity, and two finite
operands the rounded product of the magnitudes, an infinity on overflow; the sign
is the exclusive or of the signs. -/
def Double.mul : Double → Double → Double
  | Double.nan, _ => Double.nan
  | _, Double.nan => Double.nan
  | Double.inf s, Double.inf t => Double.inf (xor s t)
  | Double.inf s, Double.finite t n => if n = 0 then Double.nan else Double.inf (xor s t)
  | Double.finite s m, Double.inf t => if m = 0 then Double.nan else Double.inf (xor s t)
  | Double.finite s m, Double.finite t n =>
    match round (m * n) with
    | some y => Double.finite (xor s t) y
    | none => Double.inf (xor s t)

end Binary64

/-! ## The typed program on machine doubles -/

namespace Machine

/-- Source: `const double PI = 3.14159;`, as the `double` it initialises. -/
def PI : Binary64.Double :=
  Binary64.Double.ofLiteral 3.14159

/-- Source: `inline double calculateCircleArea(double radius)`, the body
`PI * radius * radius` as two `double` products, left to right, on every `double`. -/
def calculateCircleArea (radius : Binary64.Double) : Binary64.Double :=
  Binary64.Double.mul (Binary64.Double.mul PI radius) radius

end Machine

/-! ## Evaluation lemmas -/

theorem Typed.PI_eq : Typed.PI = 314159 / 100000 := by
  norm_num [Typed.PI]

theorem Typed.calculateCircleArea_eq (r : ℚ) :
    Typed.calculateCircleArea r = 314159 / 100000 * r ^ 2 := by
  rw [Typed.calculateCircleArea, Typed.PI_eq]
  ring

theorem Typed.mainBody_circle (radius : ℚ) (cout : List Token) :
    Typed.mainBody Typed.ShapeType.Circle radius cout =
      (0, cout ++ [Token.text "Circle area: ",
        Token.num (Typed.calculateCircleArea radius), Token.endl]) := by
  simp [Typed.mainBody]

theorem Typed.mainBody_square (radius : ℚ) (cout : List Token) :
    Typed.mainBody Typed.ShapeType.Square radius cout =
      (0, cout ++ [Token.text "Square area (mistake): ",
        Token.num (Typed.calculateCircleArea radius), Token.endl]) := by
  simp [Typed.mainBody]

theorem Typed.main_eq (cout : List Token) :
    Typed.main cout =
      (0, cout ++ [Token.text "Circle area: ",
        Token.num (Typed.calculateCircleArea 5.0), Token.endl]) := by
  simp [Typed.main, Typed.mainBody_circle]

theorem Macro.macro_main_eq (cout : List Token) :
    Macro.main cout =
      (0, cout ++ [Token.text "Circle area: ",
        Token.num (Macro.CIRCLE_AREA 5.0), Token.endl]) := by
  simp [Macro.main, Macro.mainBody, Macro.CIRCLE, Macro.SQUARE]

theorem lines_single (s : String) (v : ℚ) :
    lines [Token.text s, Token.num v, Token.endl] = [[Token.text s, Token.num v]] := by
  simp [lines, linesAux]

theorem Typed.calculateCircleArea_five : Typed.calculateCircleArea 5.0 = 78.53975 := by
  rw [Typed.calculateCircleArea_eq]
  norm_num

theorem Typed.lines_main :
    lines (Typed.main []).2 =
      [[Token.text "Circle area: ", Token.num (Typed.calculateCircleArea 5.0)]] := by
  rw [Typed.main_eq]
  exact lines_single _ _

theorem Macro.CIRCLE_AREA_eq (r : ℚ) : Macro.CIRCLE_AREA r = Typed.calculateCircleArea r := by
  rw [Macro.CIRCLE_AREA, Typed.calculateCircleArea, Macro.PI, Typed.PI]

/-! ## The binary64 rounding and its evaluation -/

namespace Binary64

/-- The integer chosen is within one half of the argument. -/
theorem nearestEven_spec (y : ℚ) : |(nearestEven y : ℚ) - y| ≤ 1 / 2 := by
  have h1 : ((⌊y⌋ : Int) : ℚ) ≤ y := Int.floor_le y
  have h2 : y < ((⌊y⌋ : Int) : ℚ) + 1 := Int.lt_floor_add_one y
  unfold nearestEven
  simp only
  rw [abs_le]
  split_ifs with h3 h4 h5
  · constructor <;> linarith
  · constructor <;> push_cast <;> linarith
  · constructor <;> linarith
  · constructor <;> push_cast <;> linarith

/-- The computed exponent brackets the magnitude between consecutive powers of two. -/
theorem exponent_spec (x : ℚ) (hx : x ≠ 0) :
    (2 : ℚ) ^ exponent x ≤ |x| ∧ |x| < (2 : ℚ) ^ (exponent x + 1) := by
  have hp : x.num.natAbs ≠ 0 := by
    simpa using hx
  have hq : x.den ≠ 0 := x.den_nz
  have hp1 : (2 : ℚ) ^ (Nat.log2 x.num.natAbs) ≤ (x.num.natAbs : ℚ) := by
    exact_mod_cast Nat.log2_self_le hp
  have hp2 : (x.num.natAbs : ℚ) < (2 : ℚ) ^ (Nat.log2 x.num.natAbs + 1) := by
    exact_mod_cast Nat.lt_log2_self
  have hq1 : (2 : ℚ) ^ (Nat.log2 x.den) ≤ (x.den : ℚ) := by
    exact_mod_cast Nat.log2_self_le hq
  have hq2 : (x.den : ℚ) < (2 : ℚ) ^ (Nat.log2 x.den + 1) := by
    exact_mod_cast Nat.lt_log2_self
  have hqpos : (0 : ℚ) < x.den := by exact_mod_cast x.den_pos
  have habs : |x| = (x.num.natAbs : ℚ) / (x.den : ℚ) := by
    conv_lhs => rw [← Rat.num_div_den x]
    rw [abs_div, Nat.abs_cast, Nat.cast_natAbs, Int.cast_abs]
  have h2a : (0 : ℚ) < (2 : ℚ) ^ (Nat.log2 x.num.natAbs) := by positivity
  have h2b : (0 : ℚ) < (2 : ℚ) ^ (Nat.log2 x.den) := by positivity
  have e1 : (2 : ℚ) ^ ((Nat.log2 x.num.natAbs : Int) - (Nat.log2 x.den : Int) + 1) =
      (2 : ℚ) ^ (Nat.log2 x.num.natAbs + 1) / (2 : ℚ) ^ (Nat.log2 x.den) := by
    rw [show ((Nat.log2 x.num.natAbs : Int) - (Nat.log2 x.den : Int) + 1) =
      ((Nat.log2 x.num.natAbs + 1 : Nat) : Int) - ((Nat.log2 x.den : Nat) : Int) by push_cast; ring]
    rw [zpow_sub₀ (by norm_num : (2 : ℚ) ≠ 0), zpow_natCast, zpow_natCast]
  have e2 : (2 : ℚ) ^ ((Nat.log2 x.num.natAbs : Int) - (Nat.log2 x.den : Int) - 1) =
      (2 : ℚ) ^ (Nat.log2 x.num.natAbs) / (2 : ℚ) ^ (Nat.log2 x.den + 1) := by
    rw [show ((Nat.log2 x.num.natAbs : Int) - (Nat.log2 x.den : Int) - 1) =
      ((Nat.log2 x.num.natAbs : Nat) : Int) - ((Nat.log2 x.den + 1 : Nat) : Int) by push_cast; ring]
    rw [zpow_sub₀ (by norm_num : (2 : ℚ) ≠ 0), zpow_natCast, zpow_natCast]
  unfold exponent
  simp only
  split_ifs with h
  · refine ⟨h, ?_⟩
    rw [e1, habs, div_lt_div_iff₀ hqpos h2b]
    calc (x.num.natAbs : ℚ) * 2 ^ Nat.log2 x.den
        ≤ (x.num.natAbs : ℚ) * x.den := by gcongr
      _ < 2 ^ (Nat.log2 x.num.natAbs + 1) * x.den := by gcongr
  · constructor
    · rw [e2, habs, div_le_div_iff₀ (by positivity) hqpos]
      calc (2 : ℚ) ^ Nat.log2 x.num.natAbs * x.den
          ≤ (x.num.natAbs : ℚ) * x.den := by gcongr
        _ ≤ (x.num.natAbs : ℚ) * 2 ^ (Nat.log2 x.den + 1) := by gcongr
    · rw [sub_add_cancel]
      exact not_le.mp h

/-- A finite rounded result is within half a unit in the last place of the exact one. -/
theorem round_error (x y : ℚ) (h : round x = some y) :
    |y - x| ≤ (2 : ℚ) ^ (max (exponent x) (-1022) - 52) / 2 := by
  unfold round at h
  by_cases h0 : x = 0
  · rw [if_pos h0] at h
    cases h
    rw [h0, sub_self, abs_zero]
    positivity
  · rw [if_neg h0] at h
    simp only at h
    split_ifs at h with hfin
    simp only [Option.some.injEq] at h
    have hu : (0 : ℚ) < (2 : ℚ) ^ (max (exponent x) (-1022) - 52) := by positivity
    have hn := nearestEven_spec (x / (2 : ℚ) ^ (max (exponent x) (-1022) - 52))
    have e : y - x = ((nearestEven (x / (2 : ℚ) ^ (max (exponent x) (-1022) - 52)) : ℚ) -
        x / (2 : ℚ) ^ (max (exponent x) (-1022) - 52)) *
          (2 : ℚ) ^ (max (exponent x) (-1022) - 52) := by
      rw [← h]
      field_simp
    rw [e, abs_mul, abs_of_pos hu]
    calc _ ≤ 1 / 2 * (2 : ℚ) ^ (max (exponent x) (-1022) - 52) := by gcongr
      _ = _ := by ring

theorem round_of_exponent (x : ℚ) (e m : Int) (hx : x ≠ 0) (he : exponent x = e)
    (hn : nearestEven (x / (2 : ℚ) ^ (max e (-1022) - 52)) = m)
    (hfin : |(m : ℚ) * (2 : ℚ) ^ (max e (-1022) - 52)| < (2 : ℚ) ^ (1024 : Int)) :
    round x = some ((m : ℚ) * (2 : ℚ) ^ (max e (-1022) - 52)) := by
  simp only [round, if_neg hx, he, hn, if_pos hfin]

/-- The literal `3.14159` becomes the double `3537115888337719 * 2 ^ (-50)`. -/
theorem PI_binary64 : PI = some (3537115888337719 / 1125899906842624) := by
  have he : exponent 3.14159 = 1 := by
    norm_num [exponent, Nat.log2, abs_lt]
  have hn : nearestEven (3.14159 / (2 : ℚ) ^ (max (1 : Int) (-1022) - 52)) =
      7074231776675438 := by
    norm_num [nearestEven]
  rw [PI, round_of_exponent 3.14159 1 7074231776675438 (by norm_num) he hn
    (by norm_num [abs_lt])]
  norm_num

/-- The first product, `PI * radius` at `radius = 5.0`. -/
theorem mul_PI_five :
    mul (3537115888337719 / 1125899906842624) 5.0 =
      some (4421394860422149 / 281474976710656) := by
  have he : exponent (3537115888337719 / 1125899906842624 * 5.0) = 3 := by
    norm_num [exponent, Nat.log2, abs_lt]
  have hn : nearestEven (3537115888337719 / 1125899906842624 * 5.0 /
      (2 : ℚ) ^ (max (3 : Int) (-1022) - 52)) = 8842789720844298 := by
    norm_num [nearestEven]
  rw [mul, round_of_exponent _ 3 8842789720844298 (by norm_num) he hn
    (by norm_num [abs_lt])]
  norm_num

/-- The second product, `(PI * radius) * radius` at `radius = 5.0`. -/
theorem mul_PI_five_five :
    mul (4421394860422149 / 281474976710656) 5.0 =
      some (2763371787763843 / 35184372088832) := by
  have he : exponent (4421394860422149 / 281474976710656 * 5.0) = 6 := by
    norm_num [exponent, Nat.log2, abs_lt]
  have hn : nearestEven (4421394860422149 / 281474976710656 * 5.0 /
      (2 : ℚ) ^ (max (6 : Int) (-1022) - 52)) = 5526743575527686 := by
    norm_num [nearestEven]
  rw [mul, round_of_exponent _ 6 5526743575527686 (by norm_num) he hn
    (by norm_num [abs_lt])]
  norm_num

theorem calculateCircleArea_unfold (radius : ℚ) :
    calculateCircleArea radius =
      PI.bind (fun pi => (mul pi radius).bind (fun t => mul t radius)) := by
  rfl

/-- The machine result at `radius = 5.0` is the double `2763371787763843 * 2 ^ (-45)`. -/
theorem calculateCircleArea_five_binary64 :
    calculateCircleArea 5.0 = some (2763371787763843 / 35184372088832) := by
  rw [calculateCircleArea_unfold, PI_binary64, Option.some_bind, mul_PI_five, Option.some_bind,
    mul_PI_five_five]

end Binary64

/-! ## Relative error of the rounding -/

namespace Binary64

theorem exponent_ge (x : ℚ) (k : Int) (hx : x ≠ 0) (hk : (2 : ℚ) ^ k ≤ |x|) :
    k ≤ exponent x := by
  have h := (exponent_spec x hx).2
  have h2 : (2 : ℚ) ^ k < (2 : ℚ) ^ (exponent x + 1) := lt_of_le_of_lt hk h
  have h3 : k < exponent x + 1 := (zpow_lt_zpow_iff_right₀ (by norm_num : (1 : ℚ) < 2)).mp h2
  omega

theorem nearestEven_mul_error (x u : ℚ) (hu : 0 < u) :
    |(nearestEven (x / u) : ℚ) * u - x| ≤ u / 2 := by
  have hn := nearestEven_spec (x / u)
  have e : (nearestEven (x / u) : ℚ) * u - x = ((nearestEven (x / u) : ℚ) - x / u) * u := by
    field_simp
  rw [e, abs_mul, abs_of_pos hu]
  calc _ ≤ 1 / 2 * u := by gcongr
    _ = _ := by ring

theorem round_rel (x : ℚ) (hlo : (2 : ℚ) ^ (-1022 : Int) ≤ |x|)
    (hhi : |x| ≤ (2 : ℚ) ^ (1024 : Int) * (7 / 8)) :
    ∃ y : ℚ, round x = some y ∧ |y - x| ≤ |x| * (2 : ℚ) ^ (-53 : Int) := by
  have hx : x ≠ 0 := by
    intro h
    rw [h, abs_zero] at hlo
    have : (0 : ℚ) < (2 : ℚ) ^ (-1022 : Int) := by positivity
    linarith
  have he : max (exponent x) (-1022) = exponent x := max_eq_left (exponent_ge x _ hx hlo)
  have hsp := (exponent_spec x hx).1
  have hulp : (2 : ℚ) ^ (exponent x - 52) / 2 = (2 : ℚ) ^ exponent x * (2 : ℚ) ^ (-53 : Int) := by
    rw [← zpow_add₀ (by norm_num : (2 : ℚ) ≠ 0), div_eq_iff (by norm_num : (2 : ℚ) ≠ 0)]
    rw [show ((2 : ℚ) ^ (exponent x + -53) * 2) = (2 : ℚ) ^ (exponent x + -53) * 2 ^ (1 : Int) by
      norm_num, ← zpow_add₀ (by norm_num : (2 : ℚ) ≠ 0)]
    congr 1
    ring
  have h1 := nearestEven_mul_error x ((2 : ℚ) ^ (exponent x - 52)) (by positivity)
  rw [hulp] at h1
  have h2 : |(nearestEven (x / (2 : ℚ) ^ (exponent x - 52)) : ℚ) * (2 : ℚ) ^ (exponent x - 52) - x|
      ≤ |x| * (2 : ℚ) ^ (-53 : Int) :=
    le_trans h1 (by gcongr)
  have h3 : |(nearestEven (x / (2 : ℚ) ^ (exponent x - 52)) : ℚ) * (2 : ℚ) ^ (exponent x - 52)|
      < (2 : ℚ) ^ (1024 : Int) := by
    have h4 := abs_sub_abs_le_abs_sub
      ((nearestEven (x / (2 : ℚ) ^ (exponent x - 52)) : ℚ) * (2 : ℚ) ^ (exponent x - 52)) x
    have h5 : |x| * (2 : ℚ) ^ (-53 : Int) ≤
        (2 : ℚ) ^ (1024 : Int) * (7 / 8) * (2 : ℚ) ^ (-53 : Int) := by gcongr
    have h6 : (2 : ℚ) ^ (1024 : Int) * (7 / 8) + (2 : ℚ) ^ (1024 : Int) * (7 / 8) *
        (2 : ℚ) ^ (-53 : Int) < (2 : ℚ) ^ (1024 : Int) := by
      have hp : (0 : ℚ) < (2 : ℚ) ^ (1024 : Int) := by positivity
      have hq : (2 : ℚ) ^ (-53 : Int) < 1 / 8 := by norm_num
      nlinarith
    linarith
  refine ⟨_, ?_, h2⟩
  simp only [round, if_neg hx, he, if_pos h3]

theorem exponent_unique (x : ℚ) (e : Int) (h1 : (2 : ℚ) ^ e ≤ |x|)
    (h2 : |x| < (2 : ℚ) ^ (e + 1)) : exponent x = e := by
  have hx : x ≠ 0 := by
    intro h
    rw [h, abs_zero] at h1
    have : (0 : ℚ) < (2 : ℚ) ^ e := by positivity
    linarith
  have h3 := exponent_ge x e hx h1
  have h4 : (2 : ℚ) ^ exponent x < (2 : ℚ) ^ (e + 1) :=
    lt_of_le_of_lt (exponent_spec x hx).1 h2
  have h5 : exponent x < e + 1 := (zpow_lt_zpow_iff_right₀ (by norm_num : (1 : ℚ) < 2)).mp h4
  omega

/-- Two roundings in the normal range: the product chain `(p * m) * m` carries a
relative error below `2 ^ (-52)` plus second-order terms. -/
theorem round_chain (p m : ℚ) (hp3 : 3 ≤ p) (hp : p ≤ 16 / 5)
    (hlo : (2 : ℚ) ^ (-511 : Int) ≤ m) (hhi : m ≤ (2 : ℚ) ^ (511 : Int)) :
    ∃ t y : ℚ, round (p * m) = some t ∧ round (t * m) = some y ∧
      p * (m * m) * ((1 - (2 : ℚ) ^ (-53 : Int)) * (1 - (2 : ℚ) ^ (-53 : Int))) ≤ y ∧
      y ≤ p * (m * m) * ((1 + (2 : ℚ) ^ (-53 : Int)) * (1 + (2 : ℚ) ^ (-53 : Int))) := by
  have hL : (2 : ℚ) ^ (-1022 : Int) = (2 : ℚ) ^ (-511 : Int) * (2 : ℚ) ^ (-511 : Int) := by
    rw [← zpow_add₀ (by norm_num : (2 : ℚ) ≠ 0)]
    norm_num
  have hH : (2 : ℚ) ^ (1024 : Int) = 4 * ((2 : ℚ) ^ (511 : Int) * (2 : ℚ) ^ (511 : Int)) := by
    rw [← zpow_add₀ (by norm_num : (2 : ℚ) ≠ 0),
      show (4 : ℚ) = (2 : ℚ) ^ (2 : Int) by norm_num,
      ← zpow_add₀ (by norm_num : (2 : ℚ) ≠ 0)]
    norm_num
  have hL0 : (0 : ℚ) < (2 : ℚ) ^ (-511 : Int) := by positivity
  have hL1 : (2 : ℚ) ^ (-511 : Int) ≤ 1 := by
    apply zpow_le_one_of_nonpos₀ (by norm_num) (by norm_num)
  have hH1 : (1 : ℚ) ≤ (2 : ℚ) ^ (511 : Int) := by
    apply one_le_zpow₀ (by norm_num) (by norm_num)
  have hu : (2 : ℚ) ^ (-53 : Int) = 1 / 9007199254740992 := by norm_num
  rw [hu]
  generalize (2 : ℚ) ^ (-511 : Int) = L at *
  generalize (2 : ℚ) ^ (511 : Int) = H at *
  have hm : 0 < m := lt_of_lt_of_le hL0 hlo
  have hx1 : |p * m| = p * m := abs_of_pos (by positivity)
  obtain ⟨t, ht, hte⟩ := round_rel (p * m)
    (by rw [hx1, hL]; nlinarith)
    (by rw [hx1, hH]; nlinarith)
  rw [hx1, hu, abs_le] at hte
  have ht0 : 0 < t := by nlinarith [mul_pos (by linarith : (0 : ℚ) < p) hm]
  have hx2 : |t * m| = t * m := abs_of_pos (by positivity)
  have hc : L * L ≤ m * m := by nlinarith
  have hc2 : m * m ≤ H * H := by nlinarith
  have htm_lo : p * (m * m) * (1 - 1 / 9007199254740992) ≤ t * m := by nlinarith
  have htm_hi : t * m ≤ p * (m * m) * (1 + 1 / 9007199254740992) := by nlinarith
  obtain ⟨y, hy, hye⟩ := round_rel (t * m)
    (by rw [hx2, hL]; nlinarith)
    (by rw [hx2, hH]; nlinarith)
  rw [hx2, hu, abs_le] at hye
  have h1 := mul_le_mul_of_nonneg_right htm_lo
    (by norm_num : (0 : ℚ) ≤ 1 - 1 / 9007199254740992)
  have h2 := mul_le_mul_of_nonneg_right htm_hi
    (by norm_num : (0 : ℚ) ≤ 1 + 1 / 9007199254740992)
  refine ⟨t, y, ht, hy, ?_, ?_⟩
  · linarith [hye.1]
  · linarith [hye.2]

theorem round_zero : round 0 = some 0 := by
  simp [round]

theorem round_overflow (x : ℚ) (e m : Int) (hx : x ≠ 0) (he : exponent x = e)
    (hn : nearestEven (x / (2 : ℚ) ^ (max e (-1022) - 52)) = m)
    (hbig : ¬ |(m : ℚ) * (2 : ℚ) ^ (max e (-1022) - 52)| < (2 : ℚ) ^ (1024 : Int)) :
    round x = none := by
  simp only [round, if_neg hx, he, hn, if_neg hbig]


theorem Double.ofLiteral_of_round (x y : ℚ) (h : round |x| = some y) :
    Double.ofLiteral x = Double.finite (decide (x < 0)) y := by
  unfold Double.ofLiteral
  rw [h]

theorem Double.mul_finite_some (s t : Bool) (m n y : ℚ) (h : round (m * n) = some y) :
    Double.mul (Double.finite s m) (Double.finite t n) = Double.finite (xor s t) y := by
  simp only [Double.mul, h]

theorem Double.mul_finite_none (s t : Bool) (m n : ℚ) (h : round (m * n) = none) :
    Double.mul (Double.finite s m) (Double.finite t n) = Double.inf (xor s t) := by
  simp only [Double.mul, h]

theorem Double.mul_inf_finite (s t : Bool) (n : ℚ) (h : n ≠ 0) :
    Double.mul (Double.inf s) (Double.finite t n) = Double.inf (xor s t) := by
  simp only [Double.mul, if_neg h]

theorem Double.mul_finite_inf (s t : Bool) (m : ℚ) (h : m ≠ 0) :
    Double.mul (Double.finite s m) (Double.inf t) = Double.inf (xor s t) := by
  simp only [Double.mul, if_neg h]

end Binary64

/-! ## Evaluation of the typed program on machine doubles -/

namespace Machine

theorem PI_machine :
    PI = Binary64.Double.finite false (3537115888337719 / 1125899906842624) := by
  have h : Binary64.round |(3.14159 : ℚ)| = some (3537115888337719 / 1125899906842624) := by
    rw [abs_of_pos (by norm_num)]
    exact Binary64.PI_binary64
  have hs : decide ((3.14159 : ℚ) < 0) = false := decide_eq_false (by norm_num)
  rw [PI, Binary64.Double.ofLiteral_of_round _ _ h, hs]

theorem area_of_rounds (s : Bool) (m t y : ℚ)
    (h1 : Binary64.round (3537115888337719 / 1125899906842624 * m) = some t)
    (h2 : Binary64.round (t * m) = some y) :
    calculateCircleArea (Binary64.Double.finite s m) = Binary64.Double.finite false y := by
  rw [calculateCircleArea, PI_machine, Binary64.Double.mul_finite_some _ _ _ _ _ h1,
    Binary64.Double.mul_finite_some _ _ _ _ _ h2, Bool.false_xor, Bool.xor_self]

theorem area_of_overflow (s : Bool) (m t : ℚ)
    (h1 : Binary64.round (3537115888337719 / 1125899906842624 * m) = some t)
    (h2 : Binary64.round (t * m) = none) :
    calculateCircleArea (Binary64.Double.finite s m) = Binary64.Double.inf false := by
  rw [calculateCircleArea, PI_machine, Binary64.Double.mul_finite_some _ _ _ _ _ h1,
    Binary64.Double.mul_finite_none _ _ _ _ h2, Bool.false_xor, Bool.xor_self]

theorem area_of_overflow_first (s : Bool) (m : ℚ)
    (h1 : Binary64.round (3537115888337719 / 1125899906842624 * m) = none) :
    calculateCircleArea (Binary64.Double.finite s m) = Binary64.Double.inf false := by
  have hm : m ≠ 0 := by
    intro h
    rw [h, mul_zero, Binary64.round_zero] at h1
    cases h1
  rw [calculateCircleArea, PI_machine, Binary64.Double.mul_finite_none _ _ _ _ h1,
    Binary64.Double.mul_inf_finite _ _ _ hm, Bool.false_xor, Bool.xor_self]

theorem area_nan : calculateCircleArea Binary64.Double.nan = Binary64.Double.nan := by
  rw [calculateCircleArea, PI_machine]
  rfl

theorem area_inf (s : Bool) :
    calculateCircleArea (Binary64.Double.inf s) = Binary64.Double.inf false := by
  rw [calculateCircleArea, PI_machine,
    Binary64.Double.mul_finite_inf _ _ _ (by norm_num), Bool.false_xor]
  simp only [Binary64.Double.mul, Bool.xor_self]

theorem area_zero (s : Bool) :
    calculateCircleArea (Binary64.Double.finite s 0) = Binary64.Double.finite false 0 := by
  apply area_of_rounds s 0 0 0
  · rw [mul_zero, Binary64.round_zero]
  · rw [mul_zero, Binary64.round_zero]

theorem area_finite_or_inf (s : Bool) (m : ℚ) :
    (∃ y : ℚ, calculateCircleArea (Binary64.Double.finite s m) = Binary64.Double.finite false y) ∨
      calculateCircleArea (Binary64.Double.finite s m) = Binary64.Double.inf false := by
  cases h1 : Binary64.round (3537115888337719 / 1125899906842624 * m) with
  | none => exact Or.inr (area_of_overflow_first s m h1)
  | some t =>
    cases h2 : Binary64.round (t * m) with
    | none => exact Or.inr (area_of_overflow s m t h1 h2)
    | some y => exact Or.inl ⟨y, area_of_rounds s m t y h1 h2⟩

theorem area_error (s : Bool) (m : ℚ)
    (hlo : (2 : ℚ) ^ (-511 : Int) ≤ m) (hhi : m ≤ (2 : ℚ) ^ (511 : Int)) :
    ∃ y : ℚ, calculateCircleArea (Binary64.Double.finite s m) = Binary64.Double.finite false y ∧
      |y - 3.14159 * m ^ 2| ≤ 3.14159 * m ^ 2 * (2 : ℚ) ^ (-51 : Int) := by
  obtain ⟨t, y, h1, h2, hl, hu⟩ :=
    Binary64.round_chain (3537115888337719 / 1125899906842624) m (by norm_num) (by norm_num) hlo hhi
  refine ⟨y, area_of_rounds s m t y h1 h2, ?_⟩
  have hc : (0 : ℚ) ≤ m * m := mul_self_nonneg m
  have e53 : (2 : ℚ) ^ (-53 : Int) = 1 / 9007199254740992 := by norm_num
  have e51 : (2 : ℚ) ^ (-51 : Int) = 1 / 2251799813685248 := by norm_num
  rw [e53] at hl hu
  rw [e51, abs_le, pow_two]
  have k1 : (3.14159 : ℚ) * (1 - 1 / 2251799813685248) ≤
      3537115888337719 / 1125899906842624 *
        ((1 - 1 / 9007199254740992) * (1 - 1 / 9007199254740992)) := by norm_num
  have k2 : (3537115888337719 / 1125899906842624 : ℚ) *
      ((1 + 1 / 9007199254740992) * (1 + 1 / 9007199254740992)) ≤
        3.14159 * (1 + 1 / 2251799813685248) := by norm_num
  have k3 := mul_le_mul_of_nonneg_left k1 hc
  have k4 := mul_le_mul_of_nonneg_left k2 hc
  constructor
  · linarith
  · linarith

/-- The first product at radius `3.0`. -/
theorem round_PI_three :
    Binary64.round (3537115888337719 / 1125899906842624 * 3) =
      some (2652836916253289 / 281474976710656) := by
  have he : Binary64.exponent (3537115888337719 / 1125899906842624 * 3) = 3 :=
    Binary64.exponent_unique _ 3 (by norm_num [abs_of_pos]) (by norm_num [abs_lt])
  have hn : Binary64.nearestEven (3537115888337719 / 1125899906842624 * 3 /
      (2 : ℚ) ^ (max (3 : Int) (-1022) - 52)) = 5305673832506578 := by
    norm_num [Binary64.nearestEven]
  rw [Binary64.round_of_exponent _ 3 5305673832506578 (by norm_num) he hn
    (by norm_num [abs_lt])]
  norm_num

/-- The second product at radius `3.0`. -/
theorem round_PI_three_three :
    Binary64.round (2652836916253289 / 281474976710656 * 3) =
      some (7958510748759867 / 281474976710656) := by
  have he : Binary64.exponent (2652836916253289 / 281474976710656 * 3) = 4 :=
    Binary64.exponent_unique _ 4 (by norm_num [abs_of_pos]) (by norm_num [abs_lt])
  have hn : Binary64.nearestEven (2652836916253289 / 281474976710656 * 3 /
      (2 : ℚ) ^ (max (4 : Int) (-1022) - 52)) = 7958510748759867 := by
    norm_num [Binary64.nearestEven]
  rw [Binary64.round_of_exponent _ 4 7958510748759867 (by norm_num) he hn
    (by norm_num [abs_lt])]
  norm_num

/-- The double nearest to the exact area `3.14159 * 3 ^ 2`. -/
theorem round_exact_area_three :
    Binary64.round (3.14159 * 3 ^ 2) = some (7958510748759868 / 281474976710656) := by
  have he : Binary64.exponent (3.14159 * 3 ^ 2) = 4 :=
    Binary64.exponent_unique _ 4 (by norm_num [abs_of_pos]) (by norm_num [abs_lt])
  have hn : Binary64.nearestEven (3.14159 * 3 ^ 2 /
      (2 : ℚ) ^ (max (4 : Int) (-1022) - 52)) = 7958510748759868 := by
    norm_num [Binary64.nearestEven]
  rw [Binary64.round_of_exponent _ 4 7958510748759868 (by norm_num) he hn
    (by norm_num [abs_lt])]
  norm_num

theorem area_three :
    calculateCircleArea (Binary64.Double.finite false 3) =
      Binary64.Double.finite false (7958510748759867 / 281474976710656) :=
  area_of_rounds false 3 _ _ round_PI_three round_PI_three_three

/-- The first product at radius `2 ^ 600` is exact. -/
theorem round_PI_huge :
    Binary64.round (3537115888337719 / 1125899906842624 * 2 ^ 600) =
      some (3537115888337719 / 1125899906842624 * 2 ^ 600) := by
  have he : Binary64.exponent (3537115888337719 / 1125899906842624 * 2 ^ 600) = 601 :=
    Binary64.exponent_unique _ 601 (by norm_num [abs_of_pos]) (by norm_num [abs_lt])
  have hn : Binary64.nearestEven (3537115888337719 / 1125899906842624 * 2 ^ 600 /
      (2 : ℚ) ^ (max (601 : Int) (-1022) - 52)) = 7074231776675438 := by
    norm_num [Binary64.nearestEven]
  rw [Binary64.round_of_exponent _ 601 7074231776675438 (by norm_num) he hn
    (by norm_num [abs_lt])]
  norm_num

/-- The second product at radius `2 ^ 600` overflows. -/
theorem round_PI_huge_huge :
    Binary64.round (3537115888337719 / 1125899906842624 * 2 ^ 600 * 2 ^ 600) = none := by
  have he : Binary64.exponent (3537115888337719 / 1125899906842624 * 2 ^ 600 * 2 ^ 600) =
      1201 :=
    Binary64.exponent_unique _ 1201 (by norm_num [abs_of_pos]) (by norm_num [abs_lt])
  have hn : Binary64.nearestEven (3537115888337719 / 1125899906842624 * 2 ^ 600 * 2 ^ 600 /
      (2 : ℚ) ^ (max (1201 : Int) (-1022) - 52)) = 7074231776675438 := by
    norm_num [Binary64.nearestEven]
  exact Binary64.round_overflow _ 1201 7074231776675438 (by norm_num) he hn
    (by norm_num [abs_lt])

theorem area_huge :
    calculateCircleArea (Binary64.Double.finite false (2 ^ 600)) =
      Binary64.Double.inf false :=
  area_of_overflow false _ _ round_PI_huge round_PI_huge_huge

/-- The first product at radius `2 ^ (-600)` is exact. -/
theorem round_PI_tiny :
    Binary64.round (3537115888337719 / 1125899906842624 * (1 / 2 ^ 600)) =
      some (3537115888337719 / 1125899906842624 * (1 / 2 ^ 600)) := by
  have he : Binary64.exponent (3537115888337719 / 1125899906842624 * (1 / 2 ^ 600)) = -599 :=
    Binary64.exponent_unique _ (-599) (by norm_num [abs_of_pos]) (by norm_num [abs_lt])
  have hn : Binary64.nearestEven (3537115888337719 / 1125899906842624 * (1 / 2 ^ 600) /
      (2 : ℚ) ^ (max (-599 : Int) (-1022) - 52)) = 7074231776675438 := by
    norm_num [Binary64.nearestEven]
  rw [Binary64.round_of_exponent _ (-599) 7074231776675438 (by norm_num) he hn
    (by norm_num [abs_lt])]
  norm_num

/-- The second product at radius `2 ^ (-600)` underflows to zero. -/
theorem round_PI_tiny_tiny :
    Binary64.round (3537115888337719 / 1125899906842624 * (1 / 2 ^ 600) * (1 / 2 ^ 600)) =
      some 0 := by
  have he : Binary64.exponent
      (3537115888337719 / 1125899906842624 * (1 / 2 ^ 600) * (1 / 2 ^ 600)) = -1199 :=
    Binary64.exponent_unique _ (-1199) (by norm_num [abs_of_pos]) (by norm_num [abs_lt])
  have hn : Binary64.nearestEven
      (3537115888337719 / 1125899906842624 * (1 / 2 ^ 600) * (1 / 2 ^ 600) /
        (2 : ℚ) ^ (max (-1199 : Int) (-1022) - 52)) = 0 := by
    norm_num [Binary64.nearestEven]
  rw [Binary64.round_of_exponent _ (-1199) 0 (by norm_num) he hn (by norm_num [abs_lt])]
  norm_num

theorem area_tiny :
    calculateCircleArea (Binary64.Double.finite false (1 / 2 ^ 600)) =
      Binary64.Double.finite false 0 :=
  area_of_rounds false _ _ _ round_PI_tiny round_PI_tiny_tiny

end Machine

namespace Binary64

/-- The finite-radius embedding at radius `3.0`. -/
theorem calculateCircleArea_three_binary64 :
    calculateCircleArea 3 = some (7958510748759867 / 281474976710656) := by
  have h1 : mul (3537115888337719 / 1125899906842624) 3 =
      some (2652836916253289 / 281474976710656) := Machine.round_PI_three
  have h2 : mul (2652836916253289 / 281474976710656) 3 =
      some (7958510748759867 / 281474976710656) := Machine.round_PI_three_three
  rw [calculateCircleArea_unfold, PI_binary64, Option.some_bind, h1, Option.some_bind, h2]

end Binary64

/-! ## The claims -/

/-- C1, as stated, fails: started on an empty `std::cout`, the typed `main` does not
write both a "Circle area: " line and a "Square area (mistake): " line with a common
value; its output has no "Square area (mistake): " line. -/
theorem main_writes_both_lines_false :
    ¬ ∃ v : ℚ,
      [Token.text "Circle area: ", Token.num v] ∈ lines (Typed.main []).2 ∧
      [Token.text "Square area (mistake): ", Token.num v] ∈ lines (Typed.main []).2 := by
  rw [Typed.lines_main]
  simp

/-- C1, amended: the typed `main` appends to `std::cout` exactly the one line
"Circle area: " followed by `calculateCircleArea(5.0)`, which is `78.53975`; no
"Square area (mistake): " item is written; the Square branch, run with its guard
true, would report the same value `calculateCircleArea(5.0)`. -/
theorem main_writes_circle_line_only (cout : List Token) :
    (Typed.main cout).2 = cout ++ [Token.text "Circle area: ",
      Token.num (Typed.calculateCircleArea 5.0), Token.endl] ∧
    lines (Typed.main []).2 = [[Token.text "Circle area: ", Token.num 78.53975]] ∧
    Token.text "Square area (mistake): " ∉ (Typed.main []).2 ∧
    lines (Typed.mainBody Typed.ShapeType.Square 5.0 []).2 =
      [[Token.text "Square area (mistake): ", Token.num 78.53975]] := by
  refine ⟨?_, ?_, ?_, ?_⟩
  · rw [Typed.main_eq]
  · rw [Typed.lines_main, Typed.calculateCircleArea_five]
  · rw [Typed.main_eq]
    simp
  · rw [Typed.mainBody_square, Typed.calculateCircleArea_five]
    exact lines_single _ _

/-- C2: `calculateCircleArea(5.0)` is `78.53975` within `1e-5`: exactly so in exact
arithmetic with `PI = 314159/100000`, and the binary64 result, which exists, is
within `1e-5` of `78.53975` as well. -/
theorem calculateCircleArea_five_within_tolerance :
    Typed.PI = 314159 / 100000 ∧
    Typed.calculateCircleArea 5.0 = 78.53975 ∧
    |Typed.calculateCircleArea 5.0 - 78.53975| ≤ 1e-5 ∧
    ∃ a : ℚ, Binary64.calculateCircleArea 5.0 = some a ∧ |a - 78.53975| ≤ 1e-5 := by
  refine ⟨Typed.PI_eq, Typed.calculateCircleArea_five, ?_, ?_⟩
  · rw [Typed.calculateCircleArea_five]
    norm_num
  · refine ⟨_, Binary64.calculateCircleArea_five_binary64, ?_⟩
    rw [abs_le]
    constructor <;> norm_num

/-- C3, as stated, fails: at radius `3.0` the code does not return the constant
`3.14159` times the square of the radius. It returns the double
`7958510748759867 * 2 ^ (-48)`, which is neither `3.14159 * 3 ^ 2 = 28.27431` nor the
double nearest to it, `7958510748759868 * 2 ^ (-48)`. -/
theorem calculateCircleArea_three_not_exact :
    Machine.calculateCircleArea (Binary64.Double.finite false 3) ≠
      Binary64.Double.finite false (3.14159 * 3 ^ 2) ∧
    Machine.calculateCircleArea (Binary64.Double.finite false 3) ≠
      Binary64.Double.ofLiteral (3.14159 * 3 ^ 2) ∧
    Machine.calculateCircleArea (Binary64.Double.finite false 3) =
      Binary64.Double.finite false (7958510748759867 / 281474976710656) ∧
    Binary64.Double.ofLiteral (3.14159 * 3 ^ 2) =
      Binary64.Double.finite false (7958510748759868 / 281474976710656) ∧
    Binary64.calculateCircleArea 3 = some (7958510748759867 / 281474976710656) := by
  have hl : Binary64.Double.ofLiteral (3.14159 * 3 ^ 2) =
      Binary64.Double.finite false (7958510748759868 / 281474976710656) := by
    have h : Binary64.round |(3.14159 * 3 ^ 2 : ℚ)| =
        some (7958510748759868 / 281474976710656) := by
      rw [abs_of_pos (by norm_num)]
      exact Machine.round_exact_area_three
    have hs : decide ((3.14159 * 3 ^ 2 : ℚ) < 0) = false := decide_eq_false (by norm_num)
    rw [Binary64.Double.ofLiteral_of_round _ _ h, hs]
  refine ⟨?_, ?_, Machine.area_three, hl, Binary64.calculateCircleArea_three_binary64⟩
  · rw [Machine.area_three]
    intro h
    rw [Binary64.Double.finite.injEq] at h
    norm_num at h
  · rw [Machine.area_three, hl]
    intro h
    rw [Binary64.Double.finite.injEq] at h
    norm_num at h

/-- C3, amended: on every `double`, with no precondition and no error result,
`calculateCircleArea` returns the `double` product `(PI * radius) * radius`, where
`PI` is the double nearest to `3.14159` and each product is rounded. NaN gives NaN,
an infinity gives `+inf`, a zero of either sign gives `+0.0`, and a finite radius of
either sign gives a finite double with the sign bit clear or `+inf`: `+inf` at
`2 ^ 600`, and `+0.0` at the non-zero radius `2 ^ (-600)`. For a magnitude between
`2 ^ (-511)` and `2 ^ 511` the result is finite and within the relative error
`2 ^ (-51)` of `3.14159` times the square of the radius; in exact arithmetic the
expression is `3.14159` times the square of the radius. -/
theorem calculateCircleArea_double_total (x : Binary64.Double) (s : Bool) (m r : ℚ) :
    Machine.calculateCircleArea x =
      Binary64.Double.mul (Binary64.Double.mul Machine.PI x) x ∧
    Machine.PI = Binary64.Double.finite false (3537115888337719 / 1125899906842624) ∧
    Machine.calculateCircleArea Binary64.Double.nan = Binary64.Double.nan ∧
    Machine.calculateCircleArea (Binary64.Double.inf s) = Binary64.Double.inf false ∧
    Machine.calculateCircleArea (Binary64.Double.finite s 0) =
      Binary64.Double.finite false 0 ∧
    ((∃ y : ℚ, Machine.calculateCircleArea (Binary64.Double.finite s m) =
        Binary64.Double.finite false y) ∨
      Machine.calculateCircleArea (Binary64.Double.finite s m) =
        Binary64.Double.inf false) ∧
    Machine.calculateCircleArea (Binary64.Double.finite false (2 ^ 600)) =
      Binary64.Double.inf false ∧
    Machine.calculateCircleArea (Binary64.Double.finite false (1 / 2 ^ 600)) =
      Binary64.Double.finite false 0 ∧
    ((2 : ℚ) ^ (-511 : Int) ≤ m → m ≤ (2 : ℚ) ^ (511 : Int) →
      ∃ y : ℚ, Machine.calculateCircleArea (Binary64.Double.finite s m) =
          Binary64.Double.finite false y ∧
        |y - 3.14159 * m ^ 2| ≤ 3.14159 * m ^ 2 * (2 : ℚ) ^ (-51 : Int)) ∧
    Typed.calculateCircleArea r = 3.14159 * r ^ 2 := by
  refine ⟨rfl, Machine.PI_machine, Machine.area_nan, Machine.area_inf s, Machine.area_zero s,
    Machine.area_finite_or_inf s m, Machine.area_huge, Machine.area_tiny,
    Machine.area_error s m, ?_⟩
  rw [Typed.calculateCircleArea_eq]
  norm_num

theorem calculateCircleArea_double_total_witness :
    (2 : ℚ) ^ (-511 : Int) ≤ 3 ∧ (3 : ℚ) ≤ (2 : ℚ) ^ (511 : Int) ∧
    ∃ y : ℚ, Machine.calculateCircleArea (Binary64.Double.finite false 3) =
        Binary64.Double.finite false y ∧
      |y - 3.14159 * 3 ^ 2| ≤ 3.14159 * 3 ^ 2 * (2 : ℚ) ^ (-51 : Int) :=
  ⟨by norm_num, by norm_num,
    (calculateCircleArea_double_total (Binary64.Double.finite false 3) false 3
      3).2.2.2.2.2.2.2.2.1 (by norm_num) (by norm_num)⟩

/-- C4: the macro program and the typed program give the same exit status and the
same output, the single line "Circle area: " with the value `78.53975`, and the
expansion of `CIRCLE_AREA(r)` equals `calculateCircleArea(r)` for every `r`. -/
theorem macro_program_equiv_typed :
    (∀ cout : List Token, Macro.main cout = Typed.main cout) ∧
    lines (Macro.main []).2 = lines (Typed.main []).2 ∧
    lines (Macro.main []).2 = [[Token.text "Circle area: ", Token.num 78.53975]] ∧
    ∀ r : ℚ, Macro.CIRCLE_AREA r = Typed.calculateCircleArea r := by
  have h : ∀ cout : List Token, Macro.main cout = Typed.main cout := by
    intro cout
    rw [Macro.macro_main_eq, Typed.main_eq, Macro.CIRCLE_AREA_eq]
  refine ⟨h, by rw [h], ?_, Macro.CIRCLE_AREA_eq⟩
  rw [h, Typed.lines_main, Typed.calculateCircleArea_five]

/-- C5: `ShapeType` has exactly the two distinct values `Square` and `Circle`;
`==` on it is reflexive, and no value equals both `Square` and `Circle`. -/
theorem shapeType_two_values :
    (∀ s : Typed.ShapeType, s = Typed.ShapeType.Square ∨ s = Typed.ShapeType.Circle) ∧
    Typed.ShapeType.Square ≠ Typed.ShapeType.Circle ∧
    Fintype.card Typed.ShapeType = 2 ∧
    (∀ s : Typed.ShapeType, (s == s) = true) ∧
    (∀ s : Typed.ShapeType,
      ¬((s == Typed.ShapeType.Square) = true ∧ (s == Typed.ShapeType.Circle) = true)) := by
  refine ⟨?_, ?_, ?_, ?_, ?_⟩
  · intro s
    cases s
    · exact Or.inl rfl
    · exact Or.inr rfl
  · intro h
    cases h
  · rfl
  · intro s
    cases s <;> rfl
  · intro s
    cases s <;> decide

/-- C6: `calculateCircleArea` is a function of its argument: equal radii give
equal results, in exact arithmetic and in binary64 arithmetic, and the result is
determined by the radius and the constant `PI`. -/
theorem calculateCircleArea_deterministic (r1 r2 : ℚ) (h : r1 = r2) :
    Typed.calculateCircleArea r1 = Typed.calculateCircleArea r2 ∧
    Binary64.calculateCircleArea r1 = Binary64.calculateCircleArea r2 ∧
    Typed.calculateCircleArea r1 = Typed.PI * r2 * r2 := by
  subst h
  exact ⟨rfl, rfl, rfl⟩

theorem calculateCircleArea_deterministic_witness :
    ((5 : ℚ) = 10 / 2) ∧
    Typed.calculateCircleArea 5 = Typed.calculateCircleArea (10 / 2) ∧
    Binary64.calculateCircleArea 5 = Binary64.calculateCircleArea (10 / 2) ∧
    Typed.calculateCircleArea 5 = Typed.PI * (10 / 2) * (10 / 2) :=
  ⟨by norm_num, calculateCircleArea_deterministic 5 (10 / 2) (by norm_num)⟩

/-- C7: `main` has one path, which ends in `return 0;`: from every state of
`std::cout` it returns exit status `0`, as does its body for every shape and radius. -/
theorem main_returns_zero (cout : List Token) :
    (Typed.main cout).1 = 0 ∧
    ∀ (s : Typed.ShapeType) (r : ℚ), (Typed.mainBody s r cout).1 = 0 := by
  refine ⟨by rw [Typed.main_eq], ?_⟩
  intro s r
  cases s
  · rw [Typed.mainBody_square]
  · rw [Typed.mainBody_circle]

/-- C8: for every shape value `s`, the two consecutive tests of `main` write exactly
one line: the "Circle area: " line when and only when `s = Circle`, the
"Square area (mistake): " line when and only when `s = Square`; for the hardcoded
`Circle` the output is the single "Circle area: " line and the Square branch writes
nothing. -/
theorem mainBody_writes_exactly_one_line (s : Typed.ShapeType) (r : ℚ) :
    (lines (Typed.mainBody s r []).2).length = 1 ∧
    ([Token.text "Circle area: ", Token.num (Typed.calculateCircleArea r)] ∈
      lines (Typed.mainBody s r []).2 ↔ s = Typed.ShapeType.Circle) ∧
    ([Token.text "Square area (mistake): ", Token.num (Typed.calculateCircleArea r)] ∈
      lines (Typed.mainBody s r []).2 ↔ s = Typed.ShapeType.Square) ∧
    (Token.text "Circle area: " ∈ (Typed.mainBody s r []).2 ↔ s = Typed.ShapeType.Circle) ∧
    (Token.text "Square area (mistake): " ∈ (Typed.mainBody s r []).2 ↔
      s = Typed.ShapeType.Square) ∧
    lines (Typed.main []).2 =
      [[Token.text "Circle area: ", Token.num (Typed.calculateCircleArea 5.0)]] ∧
    Token.text "Square area (mistake): " ∉ (Typed.main []).2 := by
  refine ⟨?_, ?_, ?_, ?_, ?_, Typed.lines_main, ?_⟩
  · cases s
    · rw [Typed.mainBody_square]
      simp [lines_single]
    · rw [Typed.mainBody_circle]
      simp [lines_single]
  · cases s
    · rw [Typed.mainBody_square]
      simp [lines_single]
    · rw [Typed.mainBody_circle]
      simp [lines_single]
  · cases s
    · rw [Typed.mainBody_square]
      simp [lines_single]
    · rw [Typed.mainBody_circle]
      simp [lines_single]
  · cases s
    · rw [Typed.mainBody_square]
      simp
    · rw [Typed.mainBody_circle]
      simp
  · cases s
    · rw [Typed.mainBody_square]
      simp
    · rw [Typed.mainBody_circle]
      simp
  · rw [Typed.main_eq]
    simp

/-- C9: in exact arithmetic the area is never negative, is zero exactly at radius
zero (so positive at every other radius), and is the same at `-r` as at `r`: a
negative radius gives the positive area of its absolute value. -/
theorem calculateCircleArea_nonneg_even (r : ℚ) :
    0 ≤ Typed.calculateCircleArea r ∧
    (Typed.calculateCircleArea r = 0 ↔ r = 0) ∧
    Typed.calculateCircleArea (-r) = Typed.calculateCircleArea r ∧
    Typed.calculateCircleArea r = Typed.calculateCircleArea |r| ∧
    (r = 0 ∨ 0 < Typed.calculateCircleArea r) := by
  simp only [Typed.calculateCircleArea_eq]
  refine ⟨by positivity, ?_, by ring, ?_, ?_⟩
  · simp
  · rw [sq_abs]
  · rcases eq_or_ne r 0 with hr | hr
    · exact Or.inl hr
    · exact Or.inr (by positivity)

/-- C10: in exact arithmetic the area is strictly increasing on non-negative radii. -/
theorem calculateCircleArea_strictMono (r1 r2 : ℚ) (h0 : 0 ≤ r1) (h : r1 < r2) :
    Typed.calculateCircleArea r1 < Typed.calculateCircleArea r2 := by
  simp only [Typed.calculateCircleArea_eq]
  have h2 : r1 ^ 2 < r2 ^ 2 := by nlinarith
  linarith

theorem calculateCircleArea_strictMono_witness :
    (0 : ℚ) ≤ 1 ∧ (1 : ℚ) < 2 ∧
      Typed.calculateCircleArea 1 < Typed.calculateCircleArea 2 :=
  ⟨by norm_num, by norm_num,
    calculateCircleArea_strictMono 1 2 (by norm_num) (by norm_num)⟩

end Item2
